import Mathlib

/-!
Verification development for the xplt/xplot plotting helpers.

The numerical core of the repository is shallowly embedded here:
* `line.py` (`iter_elements`, `KnlPlot.__init__`, `KnlPlot.update`)
* `phasespace.py` (`PhaseSpacePlot.__init__` kind parsing and argument
  validation, `PhaseSpacePlot.update` statistics and artist updates)

Machine floats are modelled by exact rationals; derived real-valued
quantities (square roots, angles) live in `ℝ`.
-/

namespace Xplt

/-- Python's float modulo: `a % b = a - b * floor (a / b)` (result has the
sign of the divisor), as used for the wrap-around arithmetic in
`KnlPlot.update`. -/
def qmod (a b : ℚ) : ℚ := a - b * (⌊a / b⌋ : ℚ)

/-- A beamline element as accessed by `line.py`: the code only reads the
optional `knl` attribute (list of multipole strengths), the `order`
attribute (present iff `hasOrder`; value in `order`), and the optional
`length` attribute. -/
structure Element where
  hasOrder : Bool
  order : ℕ
  knl? : Option (List ℚ)
  length? : Option ℚ
  deriving DecidableEq

/-- The line object as consumed by `line.py`: `element_names`, `elements`,
`get_s_elements("upstream")`, `get_s_elements("downstream")` and
`get_length()`. -/
structure Line where
  elementNames : List String
  elements : List Element
  sUp : List ℚ
  sDown : List ℚ
  length : ℚ
  deriving DecidableEq

/-- One item `(name, element, s0, s1)` of the iteration in `iter_elements`. -/
abbrev Entry : Type := String × Element × ℚ × ℚ

/-- The thin-lens adjustment of `iter_elements`: when the upstream and
downstream positions coincide and the element has a `length` attribute,
the interval is widened to that length centred at the element position. -/
def adjustTail (t : Element × ℚ × ℚ) : Element × ℚ × ℚ :=
  let el := t.1
  let s0 := t.2.1
  let s1 := t.2.2
  if s0 = s1 then
    match el.length? with
    | some L => (el, (s0 + s1 - L) / 2, (s0 + s1 + L) / 2)
    | none => (el, s0, s1)
  else (el, s0, s1)

/-- Entry-level form of the `iter_elements` body (the name is untouched). -/
def adjustEntry (e : Entry) : Entry := (e.1, adjustTail e.2)

/-- The zipped element data before the thin-lens adjustment
(`zip(line.element_names, line.elements, el_s0, el_s1)`). -/
def lineEntries (line : Line) : List Entry :=
  line.elementNames.zip (line.elements.zip (line.sUp.zip line.sDown))

/-- `iter_elements(line)`. -/
def iterElements (line : Line) : List Entry :=
  (lineEntries line).map adjustEntry

/-- The mask computed by `KnlPlot.update` for one element interval
`[s0, s1)` at a grid point `s`:
`mask = (S >= s0) & (S < s1)` when `0 <= s0 <= Smax`, and the wrap-around
`mask = (S >= s0 % Smax) | (S < s1 % Smax)` otherwise. -/
def codeMask (Smax s0 s1 s : ℚ) : Bool :=
  if 0 ≤ s0 ∧ s0 ≤ Smax then decide (s0 ≤ s ∧ s < s1)
  else decide (qmod s0 Smax ≤ s ∨ s < qmod s1 Smax)

/-- Contribution of one (already adjusted) element tuple to order `n` at
grid point `s`: `el.knl[n]` when the element has a `knl` attribute,
`n <= el.order` and the mask selects `s`; zero otherwise. -/
def tailContrib (Smax : ℚ) (n : ℕ) (s : ℚ) (t : Element × ℚ × ℚ) : ℚ :=
  match t.1.knl? with
  | some kl => if n ≤ t.1.order ∧ codeMask Smax t.2.1 t.2.2 s then kl.getD n 0 else 0
  | none => 0

/-- Contribution of an entry (name ignored, as in the code). -/
def elemContrib (Smax : ℚ) (n : ℕ) (s : ℚ) (e : Entry) : ℚ :=
  tailContrib Smax n s e.2

/-- One pass of the accumulation loop body of `KnlPlot.update`
(`KNL[i, mask] += el.knl[n]` for every plotted order). -/
def applyEntry (orders : List ℕ) (S : List ℚ) (Smax : ℚ) (acc : List (List ℚ))
    (e : Entry) : List (List ℚ) :=
  match e.2.1.knl? with
  | none => acc
  | some kl =>
      (orders.zip acc).map fun nr =>
        if nr.1 ≤ e.2.1.order then
          (S.zip nr.2).map fun sv =>
            if codeMask Smax e.2.2.1 e.2.2.2 sv.1 then sv.2 + kl.getD nr.1 0 else sv.2
        else nr.2

/-- The accumulation loop of `KnlPlot.update` over a given entry list,
starting from the zero array `KNL = np.zeros((len(self.knl), self.S.size))`. -/
def updateKNLentries (orders : List ℕ) (S : List ℚ) (Smax : ℚ)
    (entries : List Entry) : List (List ℚ) :=
  entries.foldl (applyEntry orders S Smax) (orders.map fun _ => S.map fun _ => (0 : ℚ))

/-- The full `KNL` array computed by `KnlPlot.update` (`Smax = line.get_length()`). -/
def updateKNL (orders : List ℕ) (S : List ℚ) (line : Line) : List (List ℚ) :=
  updateKNLentries orders S line.length (iterElements line)

/-- `np.linspace(0, L, res)`. -/
def linspace (L : ℚ) (res : ℕ) : List ℚ :=
  if res ≤ 1 then (List.range res).map fun _ => (0 : ℚ)
  else (List.range res).map fun i => L * i / ((res : ℚ) - 1)

/-- The claimed mask, following the spec sentence for `KnlPlot.update`:
the element contributes exactly at sampled grid points inside `[s0, s1)`,
and an interval that crosses the end of the line (it starts before `0` or
ends after `Smax`) wraps around, contributing at grid points
`s >= s0 % Smax` or `s < s1 % Smax`. -/
def claimMask (Smax s0 s1 s : ℚ) : Bool :=
  if s0 < 0 ∨ Smax < s1 then decide (qmod s0 Smax ≤ s ∨ s < qmod s1 Smax)
  else decide (s0 ≤ s ∧ s < s1)

/-- Per-element contribution under the claimed mask. -/
def claimContrib (Smax : ℚ) (n : ℕ) (s : ℚ) (e : Entry) : ℚ :=
  match e.2.1.knl? with
  | some kl => if n ≤ e.2.1.order ∧ claimMask Smax e.2.2.1 e.2.2.2 s then kl.getD n 0 else 0
  | none => 0

/-- The KNL curve as described by the claim: at every grid point, the sum
of `el.knl[n]` over the elements of the line whose (claim-)masked region
contains the point. -/
def claimKNL (orders : List ℕ) (S : List ℚ) (line : Line) : List (List ℚ) :=
  orders.map fun n => S.map fun s =>
    ((iterElements line).map (claimContrib line.length n s)).sum

/-- The amended mask: wrap-around handling applies exactly when the
interval start `s0` lies outside `[0, Smax]` (then the element contributes
at grid points `s >= s0 % Smax` or `s < s1 % Smax`); when `0 <= s0 <= Smax`
the element contributes exactly at grid points in `[s0, s1)`, even when
`s1` exceeds `Smax`. -/
def amendedMask (Smax s0 s1 s : ℚ) : Bool :=
  if s0 < 0 ∨ Smax < s0 then decide (qmod s0 Smax ≤ s ∨ s < qmod s1 Smax)
  else decide (s0 ≤ s ∧ s < s1)

/-- Per-element contribution under the amended mask. -/
def amendedContrib (Smax : ℚ) (n : ℕ) (s : ℚ) (e : Entry) : ℚ :=
  match e.2.1.knl? with
  | some kl => if n ≤ e.2.1.order ∧ amendedMask Smax e.2.2.1 e.2.2.2 s then kl.getD n 0 else 0
  | none => 0

/-- The KNL curve as described by the amended claim: at every grid point,
the sum of `el.knl[n]` over the elements of the line whose amended-masked
region contains the point. -/
def amendedKNL (orders : List ℕ) (S : List ℚ) (line : Line) : List (List ℚ) :=
  orders.map fun n => S.map fun s =>
    ((iterElements line).map (amendedContrib line.length n s)).sum

/-- A dipole-like thin element of order 0 with `knl = [1]` and a `length`
attribute of 4, used as a concrete input. -/
def elC1 : Element := { hasOrder := true, order := 0, knl? := some [1], length? := some 4 }

/-- A line of length 10 whose only element is `elC1`, placed at
`s = 10`: after the thin-lens widening its interval `[8, 12)` crosses the
end of the line. -/
def lineC1 : Line :=
  { elementNames := ["m"], elements := [elC1], sUp := [10], sDown := [10], length := 10 }

/-- A quadrupole-like element of order 2 used as a concrete input. -/
def elW : Element := { hasOrder := true, order := 2, knl? := some [1, 0, 3], length? := none }

/-- A thin element without a `length` attribute, used as a concrete input. -/
def elThin : Element := { hasOrder := true, order := 0, knl? := some [5], length? := none }

/-- A small concrete line holding `elW`. -/
def lineW : Line :=
  { elementNames := ["q"], elements := [elW], sUp := [0], sDown := [1], length := 4 }

/-- Python exception kinds raised by the embedded code paths. -/
inductive PyErr
  | valueError (msg : String)
  | indexError
  | attributeError
  | typeError
  deriving DecidableEq

/-- The `knl` argument of `KnlPlot.__init__`: `None`, a maximum order, or
an explicit list of orders. -/
inductive KnlArg
  | auto
  | ord (k : ℕ)
  | list (l : List ℕ)
  deriving DecidableEq

/-- Lines 73-79 of `line.py`: determine the list of plotted orders
`self.knl` from the `knl` argument (and the line when `knl is None`). -/
def knlOrders (line? : Option Line) (knlArg : KnlArg) : Except PyErr (List ℕ) :=
  match knlArg, line? with
  | .auto, none => .error (.valueError "Either line or knl parameter must not be None")
  | .auto, some l =>
      match ((l.elements.filter Element.hasOrder).map Element.order).max? with
      | none => .error (.valueError "max arg is an empty sequence")
      | some m => .ok (List.range (m + 1))
  | .ord k, _ => .ok (List.range (k + 1))
  | .list o, _ => .ok o

/-- Lines 73-82 of `line.py`: the argument processing of
`KnlPlot.__init__` producing the plotted orders and the sampling grid
`self.S = np.linspace(0, line_length or line.get_length(), resolution)`. -/
def knlInit (line? : Option Line) (knlArg : KnlArg) (lineLength? : Option ℚ)
    (res : ℕ) : Except PyErr (List ℕ × List ℚ) :=
  match knlOrders line? knlArg with
  | .error e => .error e
  | .ok orders =>
      if line? = none ∧ lineLength? = none then
        .error (.valueError "Either line or line_length parameter must not be None")
      else
        match lineLength?, line? with
        | some L, some l => .ok (orders, linspace (if L ≠ 0 then L else l.length) res)
        | some L, none =>
            if L ≠ 0 then .ok (orders, linspace L res) else .error .attributeError
        | none, some l => .ok (orders, linspace l.length res)
        | none, none => .error .attributeError

/-! ## phasespace.py: kind parsing and init validation -/

/-- Python `str.split(sep)` for a one-character separator: split at every
occurrence, keeping empty pieces (so splitting the empty string yields one
empty piece). -/
def splitOnChar (c : Char) : List Char → List (List Char)
  | [] => [[]]
  | x :: xs =>
      let r := splitOnChar c xs
      if x = c then [] :: r
      else
        match r with
        | h :: t => (x :: h) :: t
        | [] => [[x]]

/-- The abbreviation table of `PhaseSpacePlot.__init__`:
`x -> (x, px)`, `y -> (y, py)`, `z -> (zeta, delta)`, `X -> (X, Px)`,
`Y -> (Y, Py)`. -/
def abbrevPair : List Char → Option (List Char × List Char)
  | ['x'] => some (['x'], ['p', 'x'])
  | ['y'] => some (['y'], ['p', 'y'])
  | ['z'] => some (['z', 'e', 't', 'a'], ['d', 'e', 'l', 't', 'a'])
  | ['X'] => some (['X'], ['P', 'x'])
  | ['Y'] => some (['Y'], ['P', 'y'])
  | _ => none

/-- Parsing of one comma-separated subplot token: split at dashes, replace
a single-piece token by its abbreviation pair if it is one, and raise a
`ValueError` unless exactly two coordinates result. -/
def parseToken (t : List Char) : Except PyErr (List Char × List Char) :=
  match splitOnChar '-' t with
  | [u] =>
      match abbrevPair u with
      | some pr => .ok pr
      | none => .error (.valueError "Kind must only contain exactly two coordinates per subplot")
  | [u, v] => .ok (u, v)
  | _ => .error (.valueError "Kind must only contain exactly two coordinates per subplot")

/-- The parsing loop over the comma-separated tokens (first failure wins,
as in the Python `for` loop). -/
def parseTokens : List (List Char) → Except PyErr (List (List Char × List Char))
  | [] => .ok []
  | t :: ts =>
      match parseToken t with
      | .error e => .error e
      | .ok pr =>
          match parseTokens ts with
          | .error e => .error e
          | .ok rest => .ok (pr :: rest)

/-- The kind mini-language parser of `PhaseSpacePlot.__init__` (string
input): split at commas, then parse each token. -/
def parseKind (kind : List Char) : Except PyErr (List (List Char × List Char)) :=
  parseTokens (splitOnChar ',' kind)

/-- Spec-side acceptance of one token, following the claim: the token is a
single-piece abbreviation, or splitting it at dashes yields exactly two
coordinates. -/
def specTokenOkB (t : List Char) : Bool :=
  match splitOnChar '-' t with
  | [u] => (abbrevPair u).isSome
  | l => decide (l.length = 2)

/-- Spec-side parsed pair of one accepted token: the abbreviation pair for
a single-piece abbreviation, the two dash-separated coordinates otherwise. -/
def specTokenPair (t : List Char) : List Char × List Char :=
  match splitOnChar '-' t with
  | [u] =>
      match abbrevPair u with
      | some pr => pr
      | none => ([], [])
  | [u, v] => (u, v)
  | _ => ([], [])

/-- One item of the `percentiles` argument: a number, or a nested list of
numbers. -/
inductive PEntry
  | scalar (q : ℚ)
  | nested (l : List ℚ)
  deriving DecidableEq

/-- The per-subplot percentile specification after the sanitization step:
`None` broadcast, the whole flat list broadcast, or one item of a nested
list. -/
inductive PercSub
  | noneP
  | flat (l : List PEntry)
  | entry (e : PEntry)
  deriving DecidableEq

/-- The arguments of `PhaseSpacePlot.__init__` that take part in the
validation: the `kind` string, the `plot` string, `mean` and `std`
(a boolean or a list of booleans), `percentiles` (optional list),
`grid` (optional tuple, modelled as a list of naturals) and the number of
axes supplied (`none` when `ax is None` and a fresh figure is created). -/
structure PSArgs where
  kind : List Char
  plot : String
  mean : Bool ⊕ List Bool
  std : Bool ⊕ List Bool
  percentiles : Option (List PEntry)
  grid : Option (List ℕ)
  axes : Option ℕ
  deriving DecidableEq

/-- `mean = n * [mean]` when the argument is not iterable. -/
def broadcast2 (n : ℕ) : Bool ⊕ List Bool → List Bool
  | .inl b => List.replicate n b
  | .inr l => l

/-- Concrete init arguments with an empty `percentiles` list and
everything else valid. -/
def psA8 : PSArgs :=
  { kind := ['x'], plot := "auto", mean := .inl false, std := .inl false,
    percentiles := some [], grid := none, axes := none }

/-- Whether one sanitized per-subplot percentile item makes the artist
creation loop fail with a `TypeError` (`enumerate` over a truthy number). -/
def percTruthyBad : PercSub → Bool
  | .entry (.scalar q) => decide (q ≠ 0)
  | _ => false

/-- Lines 119-150 and the artist-creation loop of
`PhaseSpacePlot.__init__`: the length checks, the grid check, the plot
check, the axes creation and count check (an empty axes list hits
`self.axflat[0]` first), then the per-subplot artist creation. -/
def psInitChecks (a : PSArgs) (kindL : List (List Char × List Char))
    (meanL stdL : List Bool) (percL : List PercSub) :
    Except PyErr (List (List Char × List Char)) :=
  let n := kindL.length
  if meanL.length ≠ n then .error (.valueError "mean must be a boolean or a list of length n")
  else if stdL.length ≠ n then .error (.valueError "std must be a boolean or a list of length n")
  else if percL.length ≠ n then .error (.valueError "percentiles list must be flat or of length n")
  else if (match a.grid with
           | some g => !g.isEmpty && (decide (g.length ≠ 2) || decide (g.getD 0 0 * g.getD 1 0 < n))
           | none => false) then .error (.valueError "grid must be a tuple (n, m) with n*m >= n")
  else if a.plot ∈ (["auto", "scatter", "hist2d"] : List String) then
    match a.axes with
    | some 0 => .error .indexError
    | some m =>
        if m < n then .error (.valueError "Need n axes but got only m")
        else if percL.any percTruthyBad then .error .typeError
        else .ok kindL
    | none =>
        if percL.any percTruthyBad then .error .typeError
        else .ok kindL
  else .error (.valueError "plot must be auto, scatter or hist2d")

/-- `PhaseSpacePlot.__init__` up to (and including) the artist creation:
kind parsing, sanitization of `mean`/`std`/`percentiles` (the latter
inspects `percentiles[0]` and fails with an `IndexError` on an empty
list), then the checks of `psInitChecks`. -/
def psInit (a : PSArgs) : Except PyErr (List (List Char × List Char)) :=
  match parseKind a.kind with
  | .error e => .error e
  | .ok kindL =>
      let n := kindL.length
      let meanL := broadcast2 n a.mean
      let stdL := broadcast2 n a.std
      match a.percentiles with
      | some [] => .error .indexError
      | none => psInitChecks a kindL meanL stdL (List.replicate n .noneP)
      | some (.scalar q :: r) =>
          psInitChecks a kindL meanL stdL (List.replicate n (.flat (.scalar q :: r)))
      | some (.nested m :: r) =>
          psInitChecks a kindL meanL stdL ((PEntry.nested m :: r).map .entry)

/-- Whether a result is a raised `ValueError`. -/
def hasVEB {α : Type} : Except PyErr α → Bool
  | .error (.valueError _) => true
  | _ => false

/-- The claimed ValueError condition of `PhaseSpacePlot.__init__`, as the
claim states it: a kind entry with other than two coordinates, an iterable
`mean` or `std` without one entry per subplot, a nested `percentiles` list
without one entry per subplot, a `grid` that is given but is not a pair
`(n, m)` with `n*m` at least the number of subplots, a `plot` outside
`auto`/`scatter`/`hist2d`, or fewer axes than subplots. -/
def specViolOrig (a : PSArgs) : Bool :=
  match parseKind a.kind with
  | .error _ => true
  | .ok kindL =>
      let n := kindL.length
      (match a.mean with | .inr m => decide (m.length ≠ n) | .inl _ => false) ||
      (match a.std with | .inr s => decide (s.length ≠ n) | .inl _ => false) ||
      (match a.percentiles with
       | some (.nested m :: r) => decide ((PEntry.nested m :: r).length ≠ n)
       | _ => false) ||
      (match a.grid with
       | some g => !(decide (g.length = 2) && decide (n ≤ g.getD 0 0 * g.getD 1 0))
       | none => false) ||
      !(decide (a.plot ∈ (["auto", "scatter", "hist2d"] : List String))) ||
      (match a.axes with | some m => decide (m < n) | none => false)

/-- Concrete init arguments with an empty `grid` tuple and everything else
valid. -/
def psA0 : PSArgs :=
  { kind := ['x'], plot := "auto", mean := .inl false, std := .inl false,
    percentiles := none, grid := some [], axes := none }

/-- Concrete init arguments with two subplots and a grid pair that is too
small. -/
def psA5w : PSArgs :=
  { kind := ['x', ',', 'y'], plot := "auto", mean := .inl false, std := .inl false,
    percentiles := none, grid := some [1, 1], axes := none }

/-! ## phasespace.py: update statistics -/

/-- `self._masked(particles, prop, mask)`: select the masked entries of a
property array (an index mask, `p[mask]`), or the whole array when the
mask is `None`. -/
def maskedOf (p : List ℚ) : Option (List ℕ) → List ℚ
  | none => p
  | some idx => idx.map fun i => p.getD i 0

/-- `np.mean`. -/
def npMean (l : List ℚ) : ℚ := l.sum / l.length

/-- Mean-centred values of an array. -/
def centered (l : List ℚ) : List ℚ := l.map fun v => v - npMean l

/-- The three distinct entries of the symmetric 2x2 matrix `np.cov(UV)`
(rows are the two variables; default normalization by `N - 1`). -/
structure Cov2 where
  a : ℚ
  b : ℚ
  c : ℚ
  deriving DecidableEq

/-- `np.cov` of the two rows `x` and `y` (each row is re-centred by its
own mean, the products are summed and divided by `N - 1`). -/
def npCov (x y : List ℚ) : Cov2 :=
  let u := centered x
  let v := centered y
  let d : ℚ := (x.length : ℚ) - 1
  { a := ((u.zip u).map fun p => p.1 * p.2).sum / d
    b := ((u.zip v).map fun p => p.1 * p.2).sum / d
    c := ((v.zip v).map fun p => p.1 * p.2).sum / d }

/-- The larger eigenvalue of the symmetric matrix `[[a, b], [b, c]]`. -/
noncomputable def eval1 (a b c : ℝ) : ℝ :=
  (a + c) / 2 + Real.sqrt (((a - c) / 2) ^ 2 + b ^ 2)

/-- The smaller eigenvalue of the symmetric matrix `[[a, b], [b, c]]`. -/
noncomputable def eval2 (a b c : ℝ) : ℝ :=
  (a + c) / 2 - Real.sqrt (((a - c) / 2) ^ 2 + b ^ 2)

/-- A vector scaled to unit euclidean length. -/
noncomputable def unitize (v : ℝ × ℝ) : ℝ × ℝ :=
  (v.1 / Real.sqrt (v.1 ^ 2 + v.2 ^ 2), v.2 / Real.sqrt (v.1 ^ 2 + v.2 ^ 2))

/-- A unit eigenvector for the larger eigenvalue. -/
noncomputable def evec1 (a b c : ℝ) : ℝ × ℝ :=
  if b = 0 then (if a < c then (0, 1) else (1, 0))
  else unitize (b, eval1 a b c - a)

/-- A unit eigenvector for the smaller eigenvalue. -/
noncomputable def evec2 (a b c : ℝ) : ℝ × ℝ :=
  if b = 0 then (if a < c then (1, 0) else (0, 1))
  else unitize (b, eval2 a b c - a)

/-- `np.arctan2 y x`. -/
noncomputable def atan2R (y x : ℝ) : ℝ :=
  if 0 < x then Real.arctan (y / x)
  else if x < 0 then
    (if 0 ≤ y then Real.arctan (y / x) + Real.pi else Real.arctan (y / x) - Real.pi)
  else
    (if 0 < y then Real.pi / 2 else if y < 0 then -(Real.pi / 2) else 0)

/-- `np.degrees`. -/
noncomputable def degreesR (r : ℝ) : ℝ := r * 180 / Real.pi

/-- The parameters a matplotlib `Ellipse` artist is set to. -/
structure EllipseR where
  center : ℝ × ℝ
  width : ℝ
  height : ℝ
  angle : ℝ

/-- The std ellipse set by `PhaseSpacePlot.update` from the (already
unit-scaled) coordinate arrays: centre at the mean, width and height
`2 * sqrt` of the eigenvalues of `np.cov` of the centred coordinates, and
angle `degrees(arctan2(*evecs[1]))` (the second row of the eigenvector
matrix holds the y components of the two eigenvectors). -/
noncomputable def stdEllipseOf (x y : List ℚ) : EllipseR :=
  let C := npCov x y
  { center := ((npMean x : ℝ), (npMean y : ℝ))
    width := 2 * Real.sqrt (eval1 (C.a : ℝ) (C.b : ℝ) (C.c : ℝ))
    height := 2 * Real.sqrt (eval2 (C.a : ℝ) (C.b : ℝ) (C.c : ℝ))
    angle := degreesR (atan2R (evec1 (C.a : ℝ) (C.b : ℝ) (C.c : ℝ)).2
      (evec2 (C.a : ℝ) (C.b : ℝ) (C.c : ℝ)).2) }

/-- The squared radii of the eigen-normalized (whitened) particle
coordinates: `NN = evecs.T @ UV / sqrt(evals)[:, newaxis]` and
`np.sum(NN**2, axis=0)`. -/
noncomputable def whitenedSq (x y : List ℚ) : List ℝ :=
  let C := npCov x y
  let a : ℝ := (C.a : ℝ)
  let b : ℝ := (C.b : ℝ)
  let c : ℝ := (C.c : ℝ)
  ((centered x).zip (centered y)).map fun uv =>
    (((evec1 a b c).1 * (uv.1 : ℝ) + (evec1 a b c).2 * (uv.2 : ℝ)) / Real.sqrt (eval1 a b c)) ^ 2 +
    (((evec2 a b c).1 * (uv.1 : ℝ) + (evec2 a b c).2 * (uv.2 : ℝ)) / Real.sqrt (eval2 a b c)) ^ 2

/-- `np.percentile(l, p)` with the default linear interpolation: on the
sorted data, the virtual index is `p/100 * (N-1)` and the value is
interpolated between its floor and the next entry. -/
noncomputable def npPercentile (l : List ℝ) (p : ℚ) : ℝ :=
  let s := l.insertionSort (· ≤ ·)
  let h : ℝ := ((p : ℝ) / 100) * ((s.length : ℝ) - 1)
  let i : ℕ := (⌊h⌋).toNat
  let lo := s.getD i 0
  let hi := s.getD (i + 1) lo
  lo + (h - (i : ℝ)) * (hi - lo)

/-- A percentile ellipse set by `PhaseSpacePlot.update`: same centre and
angle expression as the std ellipse, and width and height scaled by
`e = percentile(sum(NN**2, axis=0), p) ** 0.5`. -/
noncomputable def percEllipseOf (x y : List ℚ) (p : ℚ) : EllipseR :=
  let C := npCov x y
  let a : ℝ := (C.a : ℝ)
  let b : ℝ := (C.b : ℝ)
  let c : ℝ := (C.c : ℝ)
  let e : ℝ := Real.sqrt (npPercentile (whitenedSq x y) p)
  { center := ((npMean x : ℝ), (npMean y : ℝ))
    width := 2 * e * Real.sqrt (eval1 a b c)
    height := 2 * e * Real.sqrt (eval2 a b c)
    angle := degreesR (atan2R (evec1 a b c).2 (evec2 a b c).2) }

/-- The artist state produced for one subplot by one `update` call. -/
structure SubOut where
  scatterVisible : Bool
  scatterOffsets : Option (List (ℚ × ℚ))
  hexbinCount : ℕ
  meanArtist : Option (ℝ × ℝ)
  stdArtist : Option EllipseR
  percArtists : List EllipseR

/-- One subplot pass of `PhaseSpacePlot.update`: mask and scale the two
coordinate arrays, choose the plot type (`auto` falls back to scatter for
at most 1000 particles and hexbin otherwise), and set the mean, std and
percentile artists that are enabled. `percs` is this subplot's percentile
list (empty when disabled). -/
noncomputable def subplotUpdate (plot : String) (meanOn stdOn : Bool) (percs : List ℚ)
    (fa fb : ℚ) (araw braw : List ℚ) (mask : Option (List ℕ)) : SubOut :=
  let x := (maskedOf araw mask).map fun v => fa * v
  let y := (maskedOf braw mask).map fun v => fb * v
  let ptype := if plot = "auto" then (if x.length ≤ 1000 then "scatter" else "hist2d") else plot
  { scatterVisible := decide (ptype = "scatter")
    scatterOffsets := if ptype = "scatter" then some (x.zip y) else none
    hexbinCount := if ptype = "hist2d" then 2 else 0
    meanArtist := if meanOn then some ((npMean x : ℝ), (npMean y : ℝ)) else none
    stdArtist := if stdOn then some (stdEllipseOf x y) else none
    percArtists := percs.map (percEllipseOf x y) }

/-- `l` is an eigenvalue of the symmetric matrix `[[a, b], [b, c]]`. -/
def IsCovEigenvalue (a b c l : ℝ) : Prop := (a - l) * (c - l) - b ^ 2 = 0

/-- `v` is an eigenvector of `[[a, b], [b, c]]` for the eigenvalue `l`. -/
def IsCovEigenpair (a b c l : ℝ) (v : ℝ × ℝ) : Prop :=
  v ≠ (0, 0) ∧ a * v.1 + b * v.2 = l * v.1 ∧ b * v.1 + c * v.2 = l * v.2

/-! ## Helper lemmas for the KNL accumulation loop -/

theorem zip_self_map {α β : Type _} (l : List α) (g : α → β) :
    l.zip (l.map g) = l.map fun a => (a, g a) := by
  induction l with
  | nil => rfl
  | cons x xs ih => simp [ih]

theorem applyEntry_maps (orders : List ℕ) (S : List ℚ) (Smax : ℚ) (f : ℕ → ℚ → ℚ)
    (e : Entry) :
    applyEntry orders S Smax (orders.map fun n => S.map fun s => f n s) e
      = orders.map fun n => S.map fun s => f n s + elemContrib Smax n s e := by
  rcases e with ⟨nm, el, s0, s1⟩
  cases h : el.knl? with
  | none => simp [applyEntry, elemContrib, tailContrib, h]
  | some kl =>
      simp only [applyEntry, elemContrib, tailContrib, h]
      rw [zip_self_map, List.map_map]
      refine List.map_congr_left fun n _ => ?_
      simp only [Function.comp]
      by_cases hn : n ≤ el.order
      · rw [if_pos hn, zip_self_map, List.map_map]
        refine List.map_congr_left fun s _ => ?_
        by_cases hm : codeMask Smax s0 s1 s = true
        · simp [hn, hm]
        · simp [hn, hm]
      · rw [if_neg hn]
        refine List.map_congr_left fun s _ => ?_
        simp [hn]

theorem foldl_applyEntry (orders : List ℕ) (S : List ℚ) (Smax : ℚ) (es : List Entry)
    (f : ℕ → ℚ → ℚ) :
    es.foldl (applyEntry orders S Smax) (orders.map fun n => S.map fun s => f n s)
      = orders.map fun n => S.map fun s =>
          f n s + ((es.map fun e => elemContrib Smax n s e).sum) := by
  induction es generalizing f with
  | nil => simp
  | cons e es ih =>
      rw [List.foldl_cons, applyEntry_maps, ih fun n s => f n s + elemContrib Smax n s e]
      simp [add_assoc]

theorem updateKNLentries_eq_sum (orders : List ℕ) (S : List ℚ) (Smax : ℚ)
    (es : List Entry) :
    updateKNLentries orders S Smax es
      = orders.map fun n => S.map fun s =>
          ((es.map fun e => elemContrib Smax n s e).sum) := by
  have h := foldl_applyEntry orders S Smax es fun _ _ => 0
  simpa [updateKNLentries] using h

theorem codeMask_eq_amendedMask (Smax s0 s1 s : ℚ) :
    codeMask Smax s0 s1 s = amendedMask Smax s0 s1 s := by
  unfold codeMask amendedMask
  by_cases h : 0 ≤ s0 ∧ s0 ≤ Smax
  · rw [if_pos h, if_neg]
    push_neg
    exact ⟨h.1, h.2⟩
  · rw [if_neg h, if_pos]
    push_neg at h
    rcases lt_or_le s0 0 with h0 | h0
    · exact Or.inl h0
    · exact Or.inr (h h0)

theorem map_snd_zip_congr {α β γ : Type _} (g : β → γ) :
    ∀ (ns1 ns2 : List α) (rest : List β), ns1.length = ns2.length →
      (ns1.zip rest).map (fun e => g e.2) = (ns2.zip rest).map fun e => g e.2 := by
  intro ns1
  induction ns1 with
  | nil =>
      intro ns2 rest h
      cases ns2 with
      | nil => rfl
      | cons b bs => exact absurd h.symm (by simp)
  | cons a as ih =>
      intro ns2 rest h
      cases ns2 with
      | nil => exact absurd h (by simp)
      | cons b bs =>
          cases rest with
          | nil => rfl
          | cons r rs =>
              simp only [List.zip_cons_cons, List.map_cons]
              exact congrArg _ (ih bs rs (by simpa using h))

/-! ## Claim theorems for line.py -/

/-- Claim C1 (amended): `KnlPlot.update` accumulates, for every element
with a `knl` attribute and every plotted order `n <= el.order`, the value
`el.knl[n]` exactly at the sampled grid points selected by the element's
interval, where wrap-around handling applies exactly when the interval
start `s0` lies outside `[0, Smax]` (contributing at `s >= s0 % Smax` or
`s < s1 % Smax`); when `0 <= s0 <= Smax` the element contributes exactly at
grid points in `[s0, s1)`, even when `s1 > Smax`. -/
theorem knl_accumulation_wraparound (orders : List ℕ) (S : List ℚ) (line : Line) :
    updateKNL orders S line = amendedKNL orders S line := by
  rw [updateKNL, updateKNLentries_eq_sum, amendedKNL]
  refine List.map_congr_left fun n _ => List.map_congr_left fun s _ => ?_
  congr 1
  refine List.map_congr_left fun e _ => ?_
  rcases e with ⟨nm, el, s0, s1⟩
  unfold elemContrib tailContrib amendedContrib
  cases el.knl? with
  | none => rfl
  | some kl => rw [codeMask_eq_amendedMask]

/-- Claim C1, as stated, is false: for the line `lineC1` of length 10 with
a thin element widened to the interval `[8, 12)` (which crosses the end of
the line), the code does not wrap around (because `0 <= s0 <= Smax`), so
the grid point `s = 0` receives no contribution although the claim's
wrap-around rule assigns it one. -/
theorem knl_accumulation_claim_counterexample :
    updateKNL [0] (linspace 10 3) lineC1 ≠ claimKNL [0] (linspace 10 3) lineC1 := by
  norm_num [updateKNL, updateKNLentries, applyEntry, claimKNL, claimContrib, claimMask,
    codeMask, iterElements, lineEntries, adjustEntry, adjustTail, elC1, lineC1, linspace,
    List.range_succ, qmod]

/-- Claim C9: a thin element (equal upstream and downstream position)
without a `length` attribute is yielded by `iter_elements` with the empty
interval `[s0, s0)`, contributes to no grid point, and leaves the
accumulated KNL array unchanged; a thin element with a `length` attribute
is widened to the interval of that length centred at its position. -/
theorem thin_element_contribution (nm : String) (el : Element) (c Smax : ℚ)
    (orders : List ℕ) (S : List ℚ) (es1 es2 : List Entry)
    (h0 : 0 ≤ c) (h1 : c ≤ Smax) :
    (el.length? = none →
      adjustEntry (nm, el, c, c) = (nm, el, c, c) ∧
      (∀ n s, elemContrib Smax n s (nm, el, c, c) = 0) ∧
      updateKNLentries orders S Smax (es1 ++ (nm, el, c, c) :: es2)
        = updateKNLentries orders S Smax (es1 ++ es2)) ∧
    (∀ L, el.length? = some L →
      adjustEntry (nm, el, c, c) = (nm, el, c - L / 2, c + L / 2)) := by
  have hmask : ∀ s : ℚ, codeMask Smax c c s = false := by
    intro s
    unfold codeMask
    rw [if_pos ⟨h0, h1⟩]
    simp only [decide_eq_false_iff_not]
    rintro ⟨hcs, hsc⟩
    exact absurd (lt_of_le_of_lt hcs hsc) (lt_irrefl c)
  have hzero : ∀ (n : ℕ) (s : ℚ), elemContrib Smax n s (nm, el, c, c) = 0 := by
    intro n s
    unfold elemContrib tailContrib
    cases el.knl? with
    | none => rfl
    | some kl => simp [hmask s]
  constructor
  · intro hnone
    refine ⟨by simp [adjustEntry, adjustTail, hnone], hzero, ?_⟩
    rw [updateKNLentries_eq_sum, updateKNLentries_eq_sum]
    refine List.map_congr_left fun n _ => List.map_congr_left fun s _ => ?_
    simp [hzero n s]
  · intro L hL
    simp only [adjustEntry, adjustTail, hL, ite_true, if_pos, Prod.mk.injEq, Prod.ext_iff]
    refine ⟨by simp, by simp, ?_, ?_⟩ <;> ring

/-- Witness instantiating the hypotheses of `thin_element_contribution` at
a concrete thin element. -/
theorem thin_element_contribution_witness :
    (0 : ℚ) ≤ 3 ∧ (3 : ℚ) ≤ 10 ∧
    (elThin.length? = none →
      adjustEntry ("t", elThin, 3, 3) = ("t", elThin, 3, 3) ∧
      (∀ n s, elemContrib 10 n s ("t", elThin, 3, 3) = 0) ∧
      updateKNLentries [0] (linspace 10 3) 10 ([] ++ ("t", elThin, 3, 3) :: [])
        = updateKNLentries [0] (linspace 10 3) 10 ([] ++ [])) := by
  refine ⟨by norm_num, by norm_num, ?_⟩
  exact (thin_element_contribution "t" elThin 3 10 [0] (linspace 10 3) [] []
    (by norm_num) (by norm_num)).1

/-- Claim C7: the update computations are deterministic functions of the
inputs the claim lists. Two lines with equal elements, equal element
intervals and equal length (the element names may differ) produce the same
accumulated KNL array, and two `update` calls on equal particle data and
mask produce identical subplot artist states. -/
theorem update_deterministic (orders : List ℕ) (S : List ℚ) (l1 l2 : Line)
    (hel : l1.elements = l2.elements) (hsu : l1.sUp = l2.sUp) (hsd : l1.sDown = l2.sDown)
    (hlen : l1.length = l2.length) (hnm : l1.elementNames.length = l2.elementNames.length)
    (plot : String) (meanOn stdOn : Bool) (percs : List ℚ) (fa fb : ℚ)
    (x1 x2 y1 y2 : List ℚ) (mask1 mask2 : Option (List ℕ))
    (hx : x1 = x2) (hy : y1 = y2) (hmk : mask1 = mask2) :
    updateKNL orders S l1 = updateKNL orders S l2 ∧
    subplotUpdate plot meanOn stdOn percs fa fb x1 y1 mask1
      = subplotUpdate plot meanOn stdOn percs fa fb x2 y2 mask2 := by
  subst hx hy hmk
  refine ⟨?_, rfl⟩
  rw [updateKNL, updateKNL, updateKNLentries_eq_sum, updateKNLentries_eq_sum, hlen]
  refine List.map_congr_left fun n _ => List.map_congr_left fun s _ => ?_
  congr 1
  rw [iterElements, iterElements, lineEntries, lineEntries, hel, hsu, hsd, List.map_map,
    List.map_map]
  exact map_snd_zip_congr (fun t => tailContrib l2.length n s (adjustTail t))
    l1.elementNames l2.elementNames _ hnm

/-- Witness instantiating `update_deterministic` on two copies of a
concrete line differing only in the element name. -/
theorem update_deterministic_witness :
    ({ lineW with elementNames := ["qf"] } : Line).elements = lineW.elements ∧
    updateKNL [0] (linspace 4 3) { lineW with elementNames := ["qf"] }
      = updateKNL [0] (linspace 4 3) lineW := by
  refine ⟨rfl, ?_⟩
  exact (update_deterministic [0] (linspace 4 3) _ lineW rfl rfl rfl rfl rfl
    "auto" false false [] 1 1 [] [] [] [] none none rfl rfl rfl).1

/-- Claim C6: `KnlPlot.__init__` raises a `ValueError` when both `line`
and `knl` are `None` and when both `line` and `line_length` are `None`;
with a line and `knl=None` the plotted orders are `0..max(el.order)`, and
with an integer `knl=k` they are `0..k`. -/
theorem knl_init_validation (res : ℕ) (ll : Option ℚ) (line : Line) (m : ℕ)
    (hm : ((line.elements.filter Element.hasOrder).map Element.order).max? = some m) :
    (∃ msg, knlInit none .auto ll res = .error (.valueError msg)) ∧
    (∀ ka, ∃ msg, knlInit none ka none res = .error (.valueError msg)) ∧
    knlOrders (some line) .auto = .ok (List.range (m + 1)) ∧
    (∀ (k : ℕ) (line? : Option Line), knlOrders line? (.ord k) = .ok (List.range (k + 1))) := by
  refine ⟨⟨_, rfl⟩, ?_, ?_, ?_⟩
  · intro ka
    cases ka with
    | auto => exact ⟨_, rfl⟩
    | ord k => exact ⟨_, rfl⟩
    | list l => exact ⟨_, rfl⟩
  · have hdef : knlOrders (some line) .auto
        = (match ((line.elements.filter Element.hasOrder).map Element.order).max? with
           | none => Except.error (PyErr.valueError "max arg is an empty sequence")
           | some m => Except.ok (List.range (m + 1))) := rfl
    rw [hdef, hm]
  · intro k line?
    cases line? <;> rfl

/-- Witness instantiating `knl_init_validation` at a concrete line whose
only element has order 2: the automatically determined orders are 0, 1, 2. -/
theorem knl_init_validation_witness :
    ((lineW.elements.filter Element.hasOrder).map Element.order).max? = some 2 ∧
    knlOrders (some lineW) .auto = .ok (List.range 3) := by
  have hm : ((lineW.elements.filter Element.hasOrder).map Element.order).max? = some 2 := by
    rfl
  exact ⟨hm, (knl_init_validation 1000 none lineW 2 hm).2.2.1⟩

/-! ## Claim theorems for the kind parser -/

theorem parseToken_spec (t : List Char) :
    (specTokenOkB t = true → parseToken t = .ok (specTokenPair t)) ∧
    (specTokenOkB t = false → ∃ m, parseToken t = .error (.valueError m)) := by
  unfold parseToken specTokenOkB specTokenPair
  cases h : splitOnChar '-' t with
  | nil => exact ⟨fun hc => by simp at hc, fun _ => ⟨_, rfl⟩⟩
  | cons u rest =>
      cases rest with
      | nil =>
          cases ha : abbrevPair u with
          | none =>
              refine ⟨fun hc => by simp [ha] at hc, fun _ =>
                ⟨"Kind must only contain exactly two coordinates per subplot", by simp [ha]⟩⟩
          | some pr => exact ⟨fun _ => by simp [ha], fun hc => by simp [ha] at hc⟩
      | cons v rest2 =>
          cases rest2 with
          | nil => exact ⟨fun _ => rfl, fun hc => by simp at hc⟩
          | cons w rest3 => exact ⟨fun hc => by simp at hc, fun _ => ⟨_, rfl⟩⟩

theorem parseTokens_spec (ts : List (List Char)) :
    ((∀ t ∈ ts, specTokenOkB t = true) → parseTokens ts = .ok (ts.map specTokenPair)) ∧
    ((∃ t ∈ ts, specTokenOkB t = false) → ∃ m, parseTokens ts = .error (.valueError m)) := by
  induction ts with
  | nil => exact ⟨fun _ => rfl, fun h => by simp at h⟩
  | cons t ts ih =>
      constructor
      · intro h
        have h1 := (parseToken_spec t).1 (h t (by simp))
        have h2 := ih.1 fun u hu => h u (by simp [hu])
        simp [parseTokens, h1, h2]
      · rintro ⟨u, hu, hbad⟩
        cases hspec : specTokenOkB t with
        | false =>
            rcases (parseToken_spec t).2 hspec with ⟨m, hm⟩
            exact ⟨m, by simp [parseTokens, hm]⟩
        | true =>
            have ht := (parseToken_spec t).1 hspec
            have hex : ∃ v ∈ ts, specTokenOkB v = false := by
              rcases List.mem_cons.mp hu with rfl | hmem
              · rw [hspec] at hbad; cases hbad
              · exact ⟨u, hmem, hbad⟩
            rcases ih.2 hex with ⟨m, hm⟩
            exact ⟨m, by simp [parseTokens, ht, hm]⟩

/-- Claim C3: the kind parser splits the string at commas into subplot
tokens and each token at dashes into a coordinate pair, replaces a
single-token abbreviation by its coordinate-momentum pair, and raises a
`ValueError` exactly for the tokens that do not yield two coordinates. -/
theorem parse_kind_spec (kind : List Char) :
    (parseKind kind = .ok ((splitOnChar ',' kind).map specTokenPair)
      ↔ ∀ t ∈ splitOnChar ',' kind, specTokenOkB t = true) ∧
    ((∃ e, parseKind kind = .error e)
      ↔ ∃ t ∈ splitOnChar ',' kind, specTokenOkB t = false) ∧
    (∀ e, parseKind kind = .error e → ∃ m, e = .valueError m) := by
  have hspec := parseTokens_spec (splitOnChar ',' kind)
  by_cases hall : ∀ t ∈ splitOnChar ',' kind, specTokenOkB t = true
  · have hok := hspec.1 hall
    refine ⟨⟨fun _ => hall, fun _ => hok⟩, ?_, ?_⟩
    · constructor
      · rintro ⟨e, he⟩
        rw [parseKind] at he
        rw [he] at hok
        cases hok
      · rintro ⟨t, ht, hbad⟩
        rw [hall t ht] at hbad
        cases hbad
    · intro e he
      rw [parseKind] at he
      rw [he] at hok
      cases hok
  · have hex : ∃ t ∈ splitOnChar ',' kind, specTokenOkB t = false := by
      push_neg at hall
      rcases hall with ⟨t, ht, hbad⟩
      exact ⟨t, ht, by simpa using hbad⟩
    rcases hspec.2 hex with ⟨m, hm⟩
    refine ⟨⟨fun hok => ?_, fun hall2 => ?_⟩, ?_, ?_⟩
    · rw [parseKind, hm] at hok
      cases hok
    · rcases hex with ⟨t, ht, hbad⟩
      rw [hall2 t ht] at hbad
      cases hbad
    · exact ⟨fun _ => hex, fun _ => ⟨_, by rw [parseKind, hm]⟩⟩
    · intro e he
      rw [parseKind, hm] at he
      exact ⟨m, by injection he with h; exact h.symm⟩

/-- Witness for `parse_kind_spec`: the kind string `x,a-b` parses into the
subplots `(x, px)` and `(a, b)`. -/
theorem parse_kind_spec_witness :
    (∀ t ∈ splitOnChar ',' ['x', ',', 'a', '-', 'b'], specTokenOkB t = true) ∧
    parseKind ['x', ',', 'a', '-', 'b']
      = .ok ((splitOnChar ',' ['x', ',', 'a', '-', 'b']).map specTokenPair) :=
  ⟨by decide, (parse_kind_spec ['x', ',', 'a', '-', 'b']).1.mpr (by decide)⟩

/-- Claim C8: an empty `percentiles` list makes `PhaseSpacePlot.__init__`
fail with an `IndexError` in the sanitization step (it inspects
`percentiles[0]` whenever `percentiles` is not `None`); the empty list is
never accepted as meaning no percentiles. -/
theorem empty_percentiles_indexError (a : PSArgs) (l : List (List Char × List Char))
    (hk : parseKind a.kind = .ok l) (hp : a.percentiles = some []) :
    psInit a = .error .indexError := by
  unfold psInit
  rw [hk, hp]

/-- Witness for `empty_percentiles_indexError` at concrete arguments. -/
theorem empty_percentiles_indexError_witness :
    parseKind psA8.kind = .ok [(['x'], ['p', 'x'])] ∧ psA8.percentiles = some [] ∧
    psInit psA8 = .error .indexError :=
  ⟨rfl, rfl, empty_percentiles_indexError psA8 [(['x'], ['p', 'x'])] rfl rfl⟩

/-! ## Claim theorems for the init validation -/

theorem broadcast2_length_ne (n : ℕ) (x : Bool ⊕ List Bool) :
    (broadcast2 n x).length ≠ n ↔ ∃ m, x = .inr m ∧ m.length ≠ n := by
  cases x <;> simp [broadcast2]

theorem psInitChecks_VE_iff (a : PSArgs) (kindL : List (List Char × List Char))
    (meanL stdL : List Bool) (percL : List PercSub) :
    (∃ msg, psInitChecks a kindL meanL stdL percL = .error (.valueError msg)) ↔
      (meanL.length ≠ kindL.length ∨ stdL.length ≠ kindL.length ∨
       percL.length ≠ kindL.length ∨
       (∃ g, a.grid = some g ∧ g ≠ [] ∧
         ¬(g.length = 2 ∧ kindL.length ≤ g.getD 0 0 * g.getD 1 0)) ∨
       a.plot ∉ (["auto", "scatter", "hist2d"] : List String) ∨
       (∃ m, a.axes = some m ∧ 1 ≤ m ∧ m < kindL.length)) := by
  unfold psInitChecks
  by_cases h1 : meanL.length ≠ kindL.length
  · rw [if_pos h1]
    simp [h1]
  rw [if_neg h1]
  by_cases h2 : stdL.length ≠ kindL.length
  · rw [if_pos h2]
    simp [h2]
  rw [if_neg h2]
  by_cases h3 : percL.length ≠ kindL.length
  · rw [if_pos h3]
    simp [h3]
  rw [if_neg h3]
  cases hg : a.grid with
  | none =>
      rw [if_neg (by simp)]
      by_cases h5 : a.plot ∈ (["auto", "scatter", "hist2d"] : List String)
      · rw [if_pos h5]
        cases hx : a.axes with
        | none => cases h6 : percL.any percTruthyBad <;> simp [h1, h2, h3, h5, h6]
        | some m =>
            cases m with
            | zero => simp [h1, h2, h3, h5]
            | succ k =>
                by_cases h7 : k + 1 < kindL.length
                · simp [h1, h2, h3, h5, h7, Nat.succ_le_succ (Nat.zero_le k)]
                · cases h6 : percL.any percTruthyBad <;> simp [h1, h2, h3, h5, h6, h7]
      · rw [if_neg h5]
        simp [h1, h2, h3, h5]
  | some g =>
      cases g with
      | nil =>
          rw [if_neg (by simp)]
          by_cases h5 : a.plot ∈ (["auto", "scatter", "hist2d"] : List String)
          · rw [if_pos h5]
            cases hx : a.axes with
            | none => cases h6 : percL.any percTruthyBad <;> simp [h1, h2, h3, h5, h6]
            | some m =>
                cases m with
                | zero => simp [h1, h2, h3, h5]
                | succ k =>
                    by_cases h7 : k + 1 < kindL.length
                    · simp [h1, h2, h3, h5, h7, Nat.succ_le_succ (Nat.zero_le k)]
                    · cases h6 : percL.any percTruthyBad <;> simp [h1, h2, h3, h5, h6, h7]
          · rw [if_neg h5]
            simp [h1, h2, h3, h5]
      | cons x xs =>
          cases xs with
          | nil =>
              rw [if_pos (by simp)]
              refine iff_of_true ⟨_, rfl⟩ ?_
              refine Or.inr (Or.inr (Or.inr (Or.inl ⟨[x], rfl, by simp, ?_⟩)))
              rintro ⟨hlen, _⟩
              simp at hlen
          | cons y ys =>
              cases ys with
              | cons z zs =>
                  rw [if_pos (by simp)]
                  refine iff_of_true ⟨_, rfl⟩ ?_
                  refine Or.inr (Or.inr (Or.inr (Or.inl
                    ⟨x :: y :: z :: zs, rfl, by simp, ?_⟩)))
                  rintro ⟨hlen, _⟩
                  simp at hlen
              | nil =>
                  by_cases hgp : kindL.length ≤ x * y
                  · rw [if_neg (by simp [Nat.not_lt.mpr hgp])]
                    by_cases h5 : a.plot ∈ (["auto", "scatter", "hist2d"] : List String)
                    · rw [if_pos h5]
                      cases hx : a.axes with
                      | none =>
                          cases h6 : percL.any percTruthyBad <;>
                            simp [h1, h2, h3, h5, h6, hgp]
                      | some m =>
                          cases m with
                          | zero => simp [h1, h2, h3, h5, hgp]
                          | succ k =>
                              by_cases h7 : k + 1 < kindL.length
                              · simp [h1, h2, h3, h5, h7, hgp,
                                  Nat.succ_le_succ (Nat.zero_le k)]
                              · cases h6 : percL.any percTruthyBad <;>
                                  simp [h1, h2, h3, h5, h6, h7, hgp]
                    · rw [if_neg h5]
                      simp [h1, h2, h3, h5]
                  · rw [if_pos (by simp [Nat.lt_of_not_le hgp])]
                    refine iff_of_true ⟨_, rfl⟩ ?_
                    exact Or.inr (Or.inr (Or.inr (Or.inl
                      ⟨[x, y], rfl, by simp, fun h => hgp h.2⟩)))

/-- Claim C5 (amended): `PhaseSpacePlot.__init__` raises a `ValueError` if
and only if a parsed kind entry has other than two coordinates, or -- with
`percentiles` not the empty list, which instead fails earlier with an
`IndexError` -- an iterable `mean` or `std` does not have one entry per
subplot, a nested `percentiles` list does not have one entry per subplot,
`grid` is given and nonempty (truthy) but is not a pair `(n, m)` with
`n*m` at least the number of subplots, `plot` is not one of
`auto`/`scatter`/`hist2d`, or a nonempty axes list with fewer axes than
subplots is supplied (an empty axes list fails with an `IndexError`
instead). -/
theorem psInit_valueError_iff_amended (a : PSArgs) :
    (∃ msg, psInit a = .error (.valueError msg)) ↔
      ((∃ e, parseKind a.kind = .error e) ∨
       (∃ kindL, parseKind a.kind = .ok kindL ∧ a.percentiles ≠ some [] ∧
         ((∃ m, a.mean = .inr m ∧ m.length ≠ kindL.length) ∨
          (∃ s, a.std = .inr s ∧ s.length ≠ kindL.length) ∨
          (∃ p0 r, a.percentiles = some (PEntry.nested p0 :: r) ∧
            (PEntry.nested p0 :: r).length ≠ kindL.length) ∨
          (∃ g, a.grid = some g ∧ g ≠ [] ∧
            ¬(g.length = 2 ∧ kindL.length ≤ g.getD 0 0 * g.getD 1 0)) ∨
          a.plot ∉ (["auto", "scatter", "hist2d"] : List String) ∨
          (∃ m, a.axes = some m ∧ 1 ≤ m ∧ m < kindL.length)))) := by
  unfold psInit
  cases hk : parseKind a.kind with
  | error e =>
      rcases (parse_kind_spec a.kind).2.2 e hk with ⟨m, rfl⟩
      simp
  | ok kindL =>
      cases hp : a.percentiles with
      | none =>
          rw [psInitChecks_VE_iff]
          rw [broadcast2_length_ne, broadcast2_length_ne]
          simp [List.length_replicate]
      | some l =>
          cases l with
          | nil => simp
          | cons p0 r =>
              cases p0 with
              | scalar q =>
                  rw [psInitChecks_VE_iff]
                  rw [broadcast2_length_ne, broadcast2_length_ne]
                  simp [List.length_replicate]
              | nested m0 =>
                  rw [psInitChecks_VE_iff]
                  rw [broadcast2_length_ne, broadcast2_length_ne]
                  have hL : ((PEntry.nested m0 :: r).map PercSub.entry).length
                      = (PEntry.nested m0 :: r).length := List.length_map _ _
                  rw [hL]
                  simp
                  constructor
                  · rintro (h | h | h | h | h | h)
                    · exact Or.inl h
                    · exact Or.inr <| Or.inl h
                    · exact Or.inr <| Or.inr <| Or.inl ⟨m0, r, ⟨rfl, rfl⟩, h⟩
                    · exact Or.inr <| Or.inr <| Or.inr <| Or.inl h
                    · exact Or.inr <| Or.inr <| Or.inr <| Or.inr <| Or.inl h
                    · exact Or.inr <| Or.inr <| Or.inr <| Or.inr <| Or.inr h
                  · rintro (h | h | ⟨p0, r1, ⟨hm, hr⟩, hlen⟩ | h | h | h)
                    · exact Or.inl h
                    · exact Or.inr <| Or.inl h
                    · subst hr
                      exact Or.inr <| Or.inr <| Or.inl hlen
                    · exact Or.inr <| Or.inr <| Or.inr <| Or.inl h
                    · exact Or.inr <| Or.inr <| Or.inr <| Or.inr <| Or.inl h
                    · exact Or.inr <| Or.inr <| Or.inr <| Or.inr <| Or.inr h

/-- Witness for `psInit_valueError_iff_amended`: two subplots with the
too-small grid pair `(1, 1)` raise a ValueError. -/
theorem psInit_valueError_iff_amended_witness :
    ∃ msg, psInit psA5w = .error (.valueError msg) :=
  (psInit_valueError_iff_amended psA5w).mpr
    (Or.inr ⟨[(['x'], ['p', 'x']), (['y'], ['p', 'y'])], rfl, by simp [psA5w],
      Or.inr (Or.inr (Or.inr (Or.inl ⟨[1, 1], rfl, by simp, by simp⟩)))⟩)

/-- Claim C5, as stated, is false: with a single subplot, valid `plot`,
scalar `mean`/`std`, no percentiles and no explicit axes, passing the
empty tuple as `grid` raises no error at all (the empty tuple is falsy, so
the grid check is skipped), although the claim's condition "grid is given
but is not a pair (n, m) with n*m >= number of subplots" holds. -/
theorem psInit_valueError_iff_counterexample :
    ¬ ((hasVEB (psInit psA0) = true) ↔ (specViolOrig psA0 = true)) := by
  decide

/-! ## Eigendecomposition lemmas for the 2x2 covariance matrix -/

theorem disc_nonneg (a b c : ℝ) : 0 ≤ ((a - c) / 2) ^ 2 + b ^ 2 := by positivity

theorem sqrt_disc_sq (a b c : ℝ) :
    Real.sqrt (((a - c) / 2) ^ 2 + b ^ 2) ^ 2 = ((a - c) / 2) ^ 2 + b ^ 2 :=
  Real.sq_sqrt (disc_nonneg a b c)

theorem eval1_is_eigenvalue (a b c : ℝ) : IsCovEigenvalue a b c (eval1 a b c) := by
  unfold IsCovEigenvalue eval1
  have h := sqrt_disc_sq a b c
  linear_combination h

theorem eval2_is_eigenvalue (a b c : ℝ) : IsCovEigenvalue a b c (eval2 a b c) := by
  unfold IsCovEigenvalue eval2
  have h := sqrt_disc_sq a b c
  linear_combination h

theorem evec1_is_eigenpair (a b c : ℝ) :
    IsCovEigenpair a b c (eval1 a b c) (evec1 a b c) := by
  by_cases hb : b = 0
  · subst hb
    have hs : Real.sqrt (((a - c) / 2) ^ 2 + (0 : ℝ) ^ 2) = |(a - c) / 2| := by
      rw [show ((a - c) / 2) ^ 2 + (0 : ℝ) ^ 2 = ((a - c) / 2) ^ 2 by ring,
        Real.sqrt_sq_eq_abs]
    unfold evec1 eval1 IsCovEigenpair
    rw [if_pos rfl]
    by_cases hac : a < c
    · rw [if_pos hac]
      have habs : |(a - c) / 2| = (c - a) / 2 := by
        rw [abs_of_neg (by linarith)]
        ring
      refine ⟨by simp, by ring, ?_⟩
      rw [hs, habs]
      ring
    · rw [if_neg hac]
      have habs : |(a - c) / 2| = (a - c) / 2 :=
        abs_of_nonneg (by linarith [not_lt.mp hac])
      refine ⟨by simp, ?_, by ring⟩
      rw [hs, habs]
      ring
  · have hchar := eval1_is_eigenvalue a b c
    unfold IsCovEigenvalue at hchar
    unfold evec1
    rw [if_neg hb]
    unfold unitize
    have hb2 : 0 < b ^ 2 := pow_two_pos_of_ne_zero hb
    have hNpos : 0 < Real.sqrt (b ^ 2 + (eval1 a b c - a) ^ 2) :=
      Real.sqrt_pos.mpr (by nlinarith [sq_nonneg (eval1 a b c - a)])
    have hN0 : Real.sqrt (b ^ 2 + (eval1 a b c - a) ^ 2) ≠ 0 := ne_of_gt hNpos
    refine ⟨?_, ?_, ?_⟩
    · intro hEq
      have h1 : b / Real.sqrt (b ^ 2 + (eval1 a b c - a) ^ 2) = 0 :=
        congrArg Prod.fst hEq
      rcases div_eq_zero_iff.mp h1 with h | h
      · exact hb h
      · exact hN0 h
    · field_simp
      ring
    · field_simp
      linear_combination -hchar

theorem evec2_is_eigenpair (a b c : ℝ) :
    IsCovEigenpair a b c (eval2 a b c) (evec2 a b c) := by
  by_cases hb : b = 0
  · subst hb
    have hs : Real.sqrt (((a - c) / 2) ^ 2 + (0 : ℝ) ^ 2) = |(a - c) / 2| := by
      rw [show ((a - c) / 2) ^ 2 + (0 : ℝ) ^ 2 = ((a - c) / 2) ^ 2 by ring,
        Real.sqrt_sq_eq_abs]
    unfold evec2 eval2 IsCovEigenpair
    rw [if_pos rfl]
    by_cases hac : a < c
    · rw [if_pos hac]
      have habs : |(a - c) / 2| = (c - a) / 2 := by
        rw [abs_of_neg (by linarith)]
        ring
      refine ⟨by simp, ?_, by ring⟩
      rw [hs, habs]
      ring
    · rw [if_neg hac]
      have habs : |(a - c) / 2| = (a - c) / 2 :=
        abs_of_nonneg (by linarith [not_lt.mp hac])
      refine ⟨by simp, by ring, ?_⟩
      rw [hs, habs]
      ring
  · have hchar := eval2_is_eigenvalue a b c
    unfold IsCovEigenvalue at hchar
    unfold evec2
    rw [if_neg hb]
    unfold unitize
    have hb2 : 0 < b ^ 2 := pow_two_pos_of_ne_zero hb
    have hNpos : 0 < Real.sqrt (b ^ 2 + (eval2 a b c - a) ^ 2) :=
      Real.sqrt_pos.mpr (by nlinarith [sq_nonneg (eval2 a b c - a)])
    have hN0 : Real.sqrt (b ^ 2 + (eval2 a b c - a) ^ 2) ≠ 0 := ne_of_gt hNpos
    refine ⟨?_, ?_, ?_⟩
    · intro hEq
      have h1 : b / Real.sqrt (b ^ 2 + (eval2 a b c - a) ^ 2) = 0 :=
        congrArg Prod.fst hEq
      rcases div_eq_zero_iff.mp h1 with h | h
      · exact hb h
      · exact hN0 h
    · field_simp
      ring
    · field_simp
      linear_combination -hchar

/-! ## Claim theorems for the update statistics -/

/-- Claim C2: with the std indicator enabled, the std ellipse set by the
update has its centre at the mean of the unit-scaled coordinate pair, its
width and height are twice the square roots of two eigenvalues of the
covariance matrix of the mean-centred coordinates, and its angle is
derived (via `degrees(arctan2(*evecs[1]))`) from corresponding unit
eigenvectors of that covariance matrix. -/
theorem std_ellipse_eigen (plot : String) (meanOn : Bool) (percs : List ℚ)
    (fa fb : ℚ) (araw braw : List ℚ) (mask : Option (List ℕ)) :
    ∃ E, (subplotUpdate plot meanOn true percs fa fb araw braw mask).stdArtist = some E ∧
      E.center = ((npMean ((maskedOf araw mask).map fun v => fa * v) : ℝ),
        (npMean ((maskedOf braw mask).map fun v => fb * v) : ℝ)) ∧
      ∃ l1 l2 v1 v2,
        E.width = 2 * Real.sqrt l1 ∧
        E.height = 2 * Real.sqrt l2 ∧
        IsCovEigenvalue
          ((npCov ((maskedOf araw mask).map fun v => fa * v)
            ((maskedOf braw mask).map fun v => fb * v)).a : ℝ)
          ((npCov ((maskedOf araw mask).map fun v => fa * v)
            ((maskedOf braw mask).map fun v => fb * v)).b : ℝ)
          ((npCov ((maskedOf araw mask).map fun v => fa * v)
            ((maskedOf braw mask).map fun v => fb * v)).c : ℝ) l1 ∧
        IsCovEigenvalue
          ((npCov ((maskedOf araw mask).map fun v => fa * v)
            ((maskedOf braw mask).map fun v => fb * v)).a : ℝ)
          ((npCov ((maskedOf araw mask).map fun v => fa * v)
            ((maskedOf braw mask).map fun v => fb * v)).b : ℝ)
          ((npCov ((maskedOf araw mask).map fun v => fa * v)
            ((maskedOf braw mask).map fun v => fb * v)).c : ℝ) l2 ∧
        IsCovEigenpair
          ((npCov ((maskedOf araw mask).map fun v => fa * v)
            ((maskedOf braw mask).map fun v => fb * v)).a : ℝ)
          ((npCov ((maskedOf araw mask).map fun v => fa * v)
            ((maskedOf braw mask).map fun v => fb * v)).b : ℝ)
          ((npCov ((maskedOf araw mask).map fun v => fa * v)
            ((maskedOf braw mask).map fun v => fb * v)).c : ℝ) l1 v1 ∧
        IsCovEigenpair
          ((npCov ((maskedOf araw mask).map fun v => fa * v)
            ((maskedOf braw mask).map fun v => fb * v)).a : ℝ)
          ((npCov ((maskedOf araw mask).map fun v => fa * v)
            ((maskedOf braw mask).map fun v => fb * v)).b : ℝ)
          ((npCov ((maskedOf araw mask).map fun v => fa * v)
            ((maskedOf braw mask).map fun v => fb * v)).c : ℝ) l2 v2 ∧
        E.angle = degreesR (atan2R v1.2 v2.2) := by
  refine ⟨stdEllipseOf ((maskedOf araw mask).map fun v => fa * v)
    ((maskedOf braw mask).map fun v => fb * v), rfl, rfl,
    _, _, _, _, rfl, rfl,
    eval1_is_eigenvalue _ _ _, eval2_is_eigenvalue _ _ _,
    evec1_is_eigenpair _ _ _, evec2_is_eigenpair _ _ _, rfl⟩

/-- Claim C4: each percentile ellipse set by the update has the same
centre and the same angle expression as the std ellipse, and its width and
height are `2 * e` times the square roots of the covariance eigenvalues,
with `e` the square root of the `p`-th percentile of the squared radii of
the eigen-normalized (whitened) particle coordinates. -/
theorem percentile_ellipse_props (plot : String) (meanOn stdOn : Bool) (percs : List ℚ)
    (fa fb : ℚ) (araw braw : List ℚ) (mask : Option (List ℕ)) (j : ℕ) (p : ℚ)
    (hj : percs[j]? = some p) :
    ∃ E, (subplotUpdate plot meanOn stdOn percs fa fb araw braw mask).percArtists[j]?
        = some E ∧
      E.center = (stdEllipseOf ((maskedOf araw mask).map fun v => fa * v)
        ((maskedOf braw mask).map fun v => fb * v)).center ∧
      E.angle = (stdEllipseOf ((maskedOf araw mask).map fun v => fa * v)
        ((maskedOf braw mask).map fun v => fb * v)).angle ∧
      E.width = 2 * Real.sqrt (npPercentile
          (whitenedSq ((maskedOf araw mask).map fun v => fa * v)
            ((maskedOf braw mask).map fun v => fb * v)) p) *
        Real.sqrt (eval1
          ((npCov ((maskedOf araw mask).map fun v => fa * v)
            ((maskedOf braw mask).map fun v => fb * v)).a : ℝ)
          ((npCov ((maskedOf araw mask).map fun v => fa * v)
            ((maskedOf braw mask).map fun v => fb * v)).b : ℝ)
          ((npCov ((maskedOf araw mask).map fun v => fa * v)
            ((maskedOf braw mask).map fun v => fb * v)).c : ℝ)) ∧
      E.height = 2 * Real.sqrt (npPercentile
          (whitenedSq ((maskedOf araw mask).map fun v => fa * v)
            ((maskedOf braw mask).map fun v => fb * v)) p) *
        Real.sqrt (eval2
          ((npCov ((maskedOf araw mask).map fun v => fa * v)
            ((maskedOf braw mask).map fun v => fb * v)).a : ℝ)
          ((npCov ((maskedOf araw mask).map fun v => fa * v)
            ((maskedOf braw mask).map fun v => fb * v)).b : ℝ)
          ((npCov ((maskedOf araw mask).map fun v => fa * v)
            ((maskedOf braw mask).map fun v => fb * v)).c : ℝ)) ∧
      IsCovEigenvalue
        ((npCov ((maskedOf araw mask).map fun v => fa * v)
          ((maskedOf braw mask).map fun v => fb * v)).a : ℝ)
        ((npCov ((maskedOf araw mask).map fun v => fa * v)
          ((maskedOf braw mask).map fun v => fb * v)).b : ℝ)
        ((npCov ((maskedOf araw mask).map fun v => fa * v)
          ((maskedOf braw mask).map fun v => fb * v)).c : ℝ)
        (eval1
          ((npCov ((maskedOf araw mask).map fun v => fa * v)
            ((maskedOf braw mask).map fun v => fb * v)).a : ℝ)
          ((npCov ((maskedOf araw mask).map fun v => fa * v)
            ((maskedOf braw mask).map fun v => fb * v)).b : ℝ)
          ((npCov ((maskedOf araw mask).map fun v => fa * v)
            ((maskedOf braw mask).map fun v => fb * v)).c : ℝ)) ∧
      IsCovEigenvalue
        ((npCov ((maskedOf araw mask).map fun v => fa * v)
          ((maskedOf braw mask).map fun v => fb * v)).a : ℝ)
        ((npCov ((maskedOf araw mask).map fun v => fa * v)
          ((maskedOf braw mask).map fun v => fb * v)).b : ℝ)
        ((npCov ((maskedOf araw mask).map fun v => fa * v)
          ((maskedOf braw mask).map fun v => fb * v)).c : ℝ)
        (eval2
          ((npCov ((maskedOf araw mask).map fun v => fa * v)
            ((maskedOf braw mask).map fun v => fb * v)).a : ℝ)
          ((npCov ((maskedOf araw mask).map fun v => fa * v)
            ((maskedOf braw mask).map fun v => fb * v)).b : ℝ)
          ((npCov ((maskedOf araw mask).map fun v => fa * v)
            ((maskedOf braw mask).map fun v => fb * v)).c : ℝ)) := by
  refine ⟨percEllipseOf ((maskedOf araw mask).map fun v => fa * v)
    ((maskedOf braw mask).map fun v => fb * v) p, ?_, rfl, rfl, rfl, rfl,
    eval1_is_eigenvalue _ _ _, eval2_is_eigenvalue _ _ _⟩
  show ((percs.map (percEllipseOf ((maskedOf araw mask).map fun v => fa * v)
    ((maskedOf braw mask).map fun v => fb * v)))[j]? = _)
  rw [List.getElem?_map, hj]
  rfl

/-- Claim C10: with `plot='auto'` a subplot is rendered as a scatter plot
iff at most 1000 particles are selected and as a hexbin density plot
otherwise; with `plot='scatter'` or `plot='hist2d'` the fixed type is used
regardless of the particle count, and the scatter offsets are set exactly
when the scatter artist is visible. -/
theorem plot_type_selection (plot : String) (meanOn stdOn : Bool) (percs : List ℚ)
    (fa fb : ℚ) (araw braw : List ℚ) (mask : Option (List ℕ))
    (hp : plot = "auto" ∨ plot = "scatter" ∨ plot = "hist2d") :
    ((subplotUpdate plot meanOn stdOn percs fa fb araw braw mask).scatterVisible = true
      ↔ (plot = "scatter" ∨ (plot = "auto" ∧ (maskedOf araw mask).length ≤ 1000))) ∧
    ((subplotUpdate plot meanOn stdOn percs fa fb araw braw mask).hexbinCount = 2
      ↔ (plot = "hist2d" ∨ (plot = "auto" ∧ 1000 < (maskedOf araw mask).length))) ∧
    ((subplotUpdate plot meanOn stdOn percs fa fb araw braw mask).scatterOffsets.isSome
      = (subplotUpdate plot meanOn stdOn percs fa fb araw braw mask).scatterVisible) := by
  rcases hp with rfl | rfl | rfl
  · by_cases hn : ((maskedOf araw mask).map fun v => fa * v).length ≤ 1000
    · have hn' : (maskedOf araw mask).length ≤ 1000 := by
        simpa [List.length_map] using hn
      simp [subplotUpdate, hn, hn']
    · have hn' : 1000 < (maskedOf araw mask).length := by
        simpa [List.length_map, Nat.not_le] using hn
      simp [subplotUpdate, hn, hn']
  · simp [subplotUpdate]
  · simp [subplotUpdate]

/-- Witness for `percentile_ellipse_props` at a concrete particle input
with one percentile `p = 50`. -/
theorem percentile_ellipse_props_witness :
    (([(50 : ℚ)] : List ℚ)[0]? = some 50) ∧
    (∃ E, (subplotUpdate "auto" false false [(50 : ℚ)] 1 1 [1, 2] [3, 4] none).percArtists[0]?
        = some E ∧
      E.center = (stdEllipseOf ((maskedOf [1, 2] none).map fun v => (1 : ℚ) * v)
        ((maskedOf [3, 4] none).map fun v => (1 : ℚ) * v)).center ∧
      E.angle = (stdEllipseOf ((maskedOf [1, 2] none).map fun v => (1 : ℚ) * v)
        ((maskedOf [3, 4] none).map fun v => (1 : ℚ) * v)).angle ∧
      E.width = 2 * Real.sqrt (npPercentile
          (whitenedSq ((maskedOf [1, 2] none).map fun v => (1 : ℚ) * v)
            ((maskedOf [3, 4] none).map fun v => (1 : ℚ) * v)) 50) *
        Real.sqrt (eval1
          ((npCov ((maskedOf [1, 2] none).map fun v => (1 : ℚ) * v)
            ((maskedOf [3, 4] none).map fun v => (1 : ℚ) * v)).a : ℝ)
          ((npCov ((maskedOf [1, 2] none).map fun v => (1 : ℚ) * v)
            ((maskedOf [3, 4] none).map fun v => (1 : ℚ) * v)).b : ℝ)
          ((npCov ((maskedOf [1, 2] none).map fun v => (1 : ℚ) * v)
            ((maskedOf [3, 4] none).map fun v => (1 : ℚ) * v)).c : ℝ)) ∧
      E.height = 2 * Real.sqrt (npPercentile
          (whitenedSq ((maskedOf [1, 2] none).map fun v => (1 : ℚ) * v)
            ((maskedOf [3, 4] none).map fun v => (1 : ℚ) * v)) 50) *
        Real.sqrt (eval2
          ((npCov ((maskedOf [1, 2] none).map fun v => (1 : ℚ) * v)
            ((maskedOf [3, 4] none).map fun v => (1 : ℚ) * v)).a : ℝ)
          ((npCov ((maskedOf [1, 2] none).map fun v => (1 : ℚ) * v)
            ((maskedOf [3, 4] none).map fun v => (1 : ℚ) * v)).b : ℝ)
          ((npCov ((maskedOf [1, 2] none).map fun v => (1 : ℚ) * v)
            ((maskedOf [3, 4] none).map fun v => (1 : ℚ) * v)).c : ℝ)) ∧
      IsCovEigenvalue
        ((npCov ((maskedOf [1, 2] none).map fun v => (1 : ℚ) * v)
          ((maskedOf [3, 4] none).map fun v => (1 : ℚ) * v)).a : ℝ)
        ((npCov ((maskedOf [1, 2] none).map fun v => (1 : ℚ) * v)
          ((maskedOf [3, 4] none).map fun v => (1 : ℚ) * v)).b : ℝ)
        ((npCov ((maskedOf [1, 2] none).map fun v => (1 : ℚ) * v)
          ((maskedOf [3, 4] none).map fun v => (1 : ℚ) * v)).c : ℝ)
        (eval1
          ((npCov ((maskedOf [1, 2] none).map fun v => (1 : ℚ) * v)
            ((maskedOf [3, 4] none).map fun v => (1 : ℚ) * v)).a : ℝ)
          ((npCov ((maskedOf [1, 2] none).map fun v => (1 : ℚ) * v)
            ((maskedOf [3, 4] none).map fun v => (1 : ℚ) * v)).b : ℝ)
          ((npCov ((maskedOf [1, 2] none).map fun v => (1 : ℚ) * v)
            ((maskedOf [3, 4] none).map fun v => (1 : ℚ) * v)).c : ℝ)) ∧
      IsCovEigenvalue
        ((npCov ((maskedOf [1, 2] none).map fun v => (1 : ℚ) * v)
          ((maskedOf [3, 4] none).map fun v => (1 : ℚ) * v)).a : ℝ)
        ((npCov ((maskedOf [1, 2] none).map fun v => (1 : ℚ) * v)
          ((maskedOf [3, 4] none).map fun v => (1 : ℚ) * v)).b : ℝ)
        ((npCov ((maskedOf [1, 2] none).map fun v => (1 : ℚ) * v)
          ((maskedOf [3, 4] none).map fun v => (1 : ℚ) * v)).c : ℝ)
        (eval2
          ((npCov ((maskedOf [1, 2] none).map fun v => (1 : ℚ) * v)
            ((maskedOf [3, 4] none).map fun v => (1 : ℚ) * v)).a : ℝ)
          ((npCov ((maskedOf [1, 2] none).map fun v => (1 : ℚ) * v)
            ((maskedOf [3, 4] none).map fun v => (1 : ℚ) * v)).b : ℝ)
          ((npCov ((maskedOf [1, 2] none).map fun v => (1 : ℚ) * v)
            ((maskedOf [3, 4] none).map fun v => (1 : ℚ) * v)).c : ℝ))) :=
  ⟨rfl, percentile_ellipse_props "auto" false false [(50 : ℚ)] 1 1 [1, 2] [3, 4] none
    0 50 rfl⟩

/-- Witness for `plot_type_selection` at `plot = 'auto'` with two
particles. -/
theorem plot_type_selection_witness :
    ("auto" = "auto" ∨ "auto" = "scatter" ∨ "auto" = "hist2d") ∧
    (((subplotUpdate "auto" false false [] 1 1 [1, 2] [3, 4] none).scatterVisible = true
      ↔ ("auto" = "scatter" ∨ ("auto" = "auto" ∧ (maskedOf [1, 2] none).length ≤ 1000))) ∧
    ((subplotUpdate "auto" false false [] 1 1 [1, 2] [3, 4] none).hexbinCount = 2
      ↔ ("auto" = "hist2d" ∨ ("auto" = "auto" ∧ 1000 < (maskedOf [1, 2] none).length))) ∧
    ((subplotUpdate "auto" false false [] 1 1 [1, 2] [3, 4] none).scatterOffsets.isSome
      = (subplotUpdate "auto" false false [] 1 1 [1, 2] [3, 4] none).scatterVisible)) :=
  ⟨Or.inl rfl, plot_type_selection "auto" false false [] 1 1 [1, 2] [3, 4] none (Or.inl rfl)⟩

end Xplt